import Mathlib

/-!
Verification of the wedding-innovation frontend core: subdomain extraction and
routing (middleware and `lib/config.ts` / `lib/api.ts`), the public landing
page's subdomain gate, `publicFetch` request construction, the album reorder
handler, the guest-list "demo guest" positional rule, the attendance
confirmation workflow, and the single-flight token-refresh interceptor.

Conventions for the shallow embedding of the TypeScript sources:
* A JavaScript value of type `string | null` is an `Option String`; `none` is
  `null`/`undefined`.
* JavaScript truthiness of a `string | null` value (`if (s) ...`) is
  `jsTruthy`: `null` and the empty string are falsy.
* `hostname.split(sep)` is `String.splitOn sep` (both return `[""]` on the
  empty string and never return an empty list).
* `localStorage.getItem(k)` is passed in as an explicit `stored : Option
  String` argument; `window.location.hostname` as `hostname : String`.
-/

namespace Wedding

/-- JS truthiness of a `string | null` value: `null`/`undefined` and `""` are falsy. -/
def jsTruthy : Option String → Bool
  | none => false
  | some s => s ≠ ""

/-- JS `localStorage.getItem(k) || null`: the empty string collapses to `null`. -/
def jsOrNull : Option String → Option String
  | some "" => none
  | x => x

/-- Worker for `jsSplit`, structurally recursive over the character list so
that the kernel can evaluate it on concrete hosts. -/
def jsSplitAux (sep : Char) : List Char → List Char → List String
  | [], acc => [String.mk acc.reverse]
  | c :: cs, acc =>
    if c = sep then String.mk acc.reverse :: jsSplitAux sep cs []
    else jsSplitAux sep cs (c :: acc)

/-- Model of `s.split(sep)` — JS `String.prototype.split` on a single-character
separator: `"".split('.')` is `[""]`, separators at the ends produce empty
labels, and the result is never the empty array. -/
def jsSplit (sep : Char) (s : String) : List String :=
  jsSplitAux sep s.data []

/-- Model of `s.toLowerCase()` restricted to ASCII (sufficient for the reserved-name
comparisons the sources perform). -/
def jsToLower (s : String) : String :=
  String.mk (s.data.map Char.toLower)

/-- Model of `s.startsWith(pre)` — JS `String.prototype.startsWith`. -/
def jsStartsWith (s pre : String) : Bool :=
  pre.data.isPrefixOf s.data

/-- Constant `SYSTEM_SUBDOMAINS` from `middleware.ts` and `lib/config.ts`. -/
def SYSTEM_SUBDOMAINS : List String := ["www", "api", "admin", "mail", "ftp", "cpanel"]

/-- Constant `PUBLIC_ROUTES` from `middleware.ts` (defined in the source but never
consulted by the `middleware` function itself). -/
def PUBLIC_ROUTES : List String :=
  ["/login", "/admin", "/dashboard", "/edit", "/preview", "/_next",
   "/favicon.ico", "/img", "/font", "/music"]

/-- Model of `hostname.split(':')[0]`: strip an optional port. `split` never returns an
empty array, so index 0 is total. -/
def stripPort (hostname : String) : String :=
  (jsSplit ':' hostname).headD ""

/-- Function `getSubdomain` from `middleware.ts`: strip the port, special-case
`localhost` / `127.0.0.1` to `null`, and otherwise accept the lowercased first
label of a host with ≥ 4 dot-separated labels unless it is a system subdomain. -/
def getSubdomain (hostname : String) : Option String :=
  let host := stripPort hostname
  if host = "localhost" ∨ host = "127.0.0.1" then
    none
  else
    let parts := jsSplit '.' host
    if parts.length ≥ 4 then
      let subdomain := jsToLower (parts.headD "")
      if subdomain ∉ SYSTEM_SUBDOMAINS then some subdomain else none
    else
      none

/-- Function `getSubdomainFromUrl` from `lib/config.ts`, with `window.location.hostname`
and `localStorage.getItem('wedding_subdomain')` passed explicitly. On
`localhost` / `127.0.0.1` it returns the stored dev subdomain (`|| null`);
otherwise it accepts the lowercased first label of a host with ≥ 4 labels
unless it is a system subdomain. -/
def getSubdomainFromUrl (hostname : String) (stored : Option String) : Option String :=
  if hostname = "localhost" ∨ hostname = "127.0.0.1" then
    jsOrNull stored
  else
    let parts := jsSplit '.' hostname
    if parts.length ≥ 4 then
      let subdomain := jsToLower (parts.headD "")
      if subdomain ∉ SYSTEM_SUBDOMAINS then some subdomain else none
    else
      none

/-- Function `getSubdomain` from `lib/api.ts`: accept the lowercased first label of any
host with ≥ 2 labels unless it is `www`, `api` or `admin`; otherwise fall back
to the stored dev subdomain and finally `null`. -/
def getSubdomainApi (hostname : String) (stored : Option String) : Option String :=
  let parts := jsSplit '.' hostname
  let fromHost : Option String :=
    if parts.length ≥ 2 then
      let subdomain := jsToLower (parts.headD "")
      if subdomain ≠ "www" ∧ subdomain ≠ "api" ∧ subdomain ≠ "admin" then
        some subdomain
      else
        none
    else
      none
  match fromHost with
  | some s => some s
  | none =>
    match stored with
    | some s => if s ≠ "" then some s else none
    | none => none

/-- Function `getImageUrl` from `lib/config.ts`, with `config.staticUrl` passed
explicitly. Empty/null/undefined paths give `''`; absolute `http(s)` URLs pass
through; anything else is prefixed with the static base URL. -/
def getImageUrl (staticUrl : String) (path : Option String) : String :=
  match path with
  | none => ""
  | some p =>
    if p = "" then ""
    else if jsStartsWith p "http://" = true ∨ jsStartsWith p "https://" = true then p
    else staticUrl ++ p

/-- Model of `s.includes(c)` for a single character — JS `String.prototype.includes`. -/
def jsIncludesChar (s : String) (c : Char) : Bool :=
  s.data.contains c

/-- The three routing outcomes `middleware` in `middleware.ts` can produce:
`NextResponse.next()`, `NextResponse.next()` with the `x-subdomain` response
header set, and `NextResponse.rewrite(new URL('/not-found', ...))`. -/
inductive Decision where
  | next : Decision
  | nextWithSubdomain : String → Decision
  | rewriteNotFound : Decision
deriving DecidableEq, Repr

/-- The static-asset bypass of `middleware`: `pathname.startsWith('/_next') ||
... || pathname.includes('.')`. -/
def isStaticPath (pathname : String) : Bool :=
  jsStartsWith pathname "/_next" || jsStartsWith pathname "/favicon" ||
  jsStartsWith pathname "/img" || jsStartsWith pathname "/font" ||
  jsStartsWith pathname "/music" || jsIncludesChar pathname '.'

/-- Function `middleware` from `middleware.ts`. `valid` is the oracle for
`validateSubdomain` (a network call; the source returns `true` on a fetch
error, so the oracle is an arbitrary boolean function). The JS guard
`if (!subdomain)` also fires on an empty-string subdomain, hence `jsTruthy`. -/
def middleware (valid : String → Bool) (host pathname : String) : Decision :=
  let subdomain := getSubdomain host
  if jsTruthy subdomain = false then
    Decision.next
  else
    let s := subdomain.getD ""
    if isStaticPath pathname then
      Decision.next
    else if valid s = false then
      Decision.rewriteNotFound
    else
      Decision.nextWithSubdomain s

/-- The two actions the `useEffect` of `PublicWeddingPage`
(`app/[guestId]/page.tsx`) can take: `router.replace('/not-found')` when the
extracted subdomain is falsy, or fetching and rendering the wedding data. -/
inductive PageAction where
  | redirectNotFound : PageAction
  | fetchWedding : String → PageAction
deriving DecidableEq, Repr

/-- The subdomain gate of `PublicWeddingPage`: `const subdomain =
getSubdomainFromUrl(); if (!subdomain) { router.replace('/not-found'); return }
fetchWeddingData()`. -/
def publicWeddingPageEffect (hostname : String) (stored : Option String)
    (guestId : String) : PageAction :=
  let subdomain := getSubdomainFromUrl hostname stored
  if jsTruthy subdomain = false then
    PageAction.redirectNotFound
  else
    PageAction.fetchWedding guestId

/-- The request `publicFetch` (`lib/config.ts`) issues: target URL plus the
optional `X-Subdomain` header. -/
structure PublicRequest where
  url : String
  xSubdomain : Option String
deriving DecidableEq, Repr

/-- Function `publicFetch` from `lib/config.ts`, reduced to its request construction:
`X-Subdomain` is set when the extracted subdomain is truthy, the base path is
`by-subdomain` for a truthy subdomain and `public` otherwise, and a truthy
`endpoint` is appended after a slash. -/
def publicFetchRequest (apiUrl : String) (hostname : String) (stored : Option String)
    (guestId : String) (endpoint : Option String) : PublicRequest :=
  let subdomain := getSubdomainFromUrl hostname stored
  let header : Option String := if jsTruthy subdomain then subdomain else none
  let basePath := if jsTruthy subdomain then "by-subdomain" else "public"
  let path := if jsTruthy endpoint then "/" ++ endpoint.getD "" else ""
  { url := apiUrl ++ "/landing-page/" ++ basePath ++ "/" ++ guestId ++ path
    xSubdomain := header }

/-- A guest row as the guest-management page (`app/edit/[id]/guests/page.tsx`)
receives it. -/
structure Guest where
  id : String
  name : String
  user_relationship : String
  confirm : Bool
deriving DecidableEq, Repr

/-- Function `isFirstGuest` from `app/edit/[id]/guests/page.tsx`:
`currentPage === 1 && index === 0`. -/
def isFirstGuest (currentPage index : Nat) : Bool :=
  currentPage = 1 && index = 0

/-- What the guest table row renders for a guest: whether the "Demo" badge is
shown (`isFirstGuest(index) && ...`) and whether the delete button is shown
(`!isFirstGuest(index) && ...`). The guest record itself is passed but the
controls depend only on the position. -/
def guestRowControls (_guest : Guest) (currentPage index : Nat) : Bool × Bool :=
  (isFirstGuest currentPage index, !(isFirstGuest currentPage index))

/-- An album image as `app/edit/[id]/albums/page.tsx` holds it. -/
structure AlbumImage where
  id : String
  image_url : String
  order : Nat
deriving DecidableEq, Repr

/-- Function `arrayMove` from `@dnd-kit/sortable` as used by `handleDragEnd`: remove the
element at index `i` and re-insert it at index `j` (both indices are indices of
existing images found by `findIndex`, so the out-of-range fallback is never
reached under the claims' hypotheses). -/
def arrayMove {α : Type} (l : List α) (i j : Nat) : List α :=
  match l.get? i with
  | none => l
  | some a => (l.eraseIdx i).insertIdx j a

/-- The `.map((img, idx) => ({ ...img, order: idx + 1 }))` renumbering in
`handleDragEnd`, written with an explicit starting index (`renumberFrom 1`). -/
def renumberFrom (n : Nat) : List AlbumImage → List AlbumImage
  | [] => []
  | img :: rest => { img with order := n } :: renumberFrom (n + 1) rest

/-- Function `handleDragEnd` from `app/edit/[id]/albums/page.tsx`, reduced to the list it
passes to `onReorder`: when the dragged id differs from the drop-target id,
move the dragged image to the target's index with `arrayMove` and renumber
orders from 1. -/
def handleDragEnd (images : List AlbumImage) (activeId overId : String) : List AlbumImage :=
  if activeId ≠ overId then
    match images.findIdx? (fun img => img.id = activeId),
          images.findIdx? (fun img => img.id = overId) with
    | some oldIndex, some newIndex => renumberFrom 1 (arrayMove images oldIndex newIndex)
    | _, _ => images
  else
    images

/-- The component state of `InviteSection` (`handleConfirmClick` and the
confirm button in `lib/api.ts`'s sibling component file). -/
structure ConfirmClientState where
  isConfirming : Bool
  hasConfirmed : Bool
  isModalOpen : Bool
deriving DecidableEq, Repr

/-- Result of the `publicFetch(guestId, 'confirm', { method: 'POST' })` call:
`ok` is a non-null JSON response, `failed` is a `null` result or a thrown
error (the source's `else` and `catch` branches behave alike for the state we
track). -/
inductive ConfirmApiResult where
  | ok : ConfirmApiResult
  | failed : ConfirmApiResult
deriving DecidableEq, Repr

/-- Function `handleConfirmClick` from `InviteSection`: guard on
`isConfirming || hasConfirmed`, otherwise POST the confirm call (the `Nat`
counts POSTs issued), set `hasConfirmed` only on a truthy result, and open the
modal in every branch; `isConfirming` is reset in `finally`. -/
def handleConfirmClick (s : ConfirmClientState) (r : ConfirmApiResult) :
    ConfirmClientState × Nat :=
  if s.isConfirming || s.hasConfirmed then
    (s, 0)
  else
    match r with
    | ConfirmApiResult.ok =>
      ({ isConfirming := false, hasConfirmed := true, isModalOpen := true }, 1)
    | ConfirmApiResult.failed =>
      ({ isConfirming := false, hasConfirmed := s.hasConfirmed, isModalOpen := true }, 1)

/-- The confirm button's `onClick` in `InviteSection`: an already-confirmed
guest only re-opens the modal; otherwise `handleConfirmClick` runs unless a
confirmation is already in flight. -/
def confirmButtonClick (s : ConfirmClientState) (r : ConfirmApiResult) :
    ConfirmClientState × Nat :=
  if s.hasConfirmed then
    ({ s with isModalOpen := true }, 0)
  else if !s.isConfirming then
    handleConfirmClick s r
  else
    (s, 0)

/-- Modelled from the spec: a Guest row as the backend Guest Registry stores it
(§3, §4.2) — the backend source is not under `src/` (its directory holds only a
README), so only the `id` and the confirmation flag relevant to §4.4 are kept. -/
structure RegGuest where
  id : String
  confirmed : Bool
deriving DecidableEq, Repr

/-- Modelled from the spec: `confirmAttendance(guestId) → { alreadyConfirmed }`
(§4.4) on the resolved guest — idempotent, transitions `false→true` only, and
performs no write when already confirmed. Returns the updated guest and the
`alreadyConfirmed` flag. -/
def confirmAttendance (g : RegGuest) : RegGuest × Bool :=
  if g.confirmed then (g, true) else ({ g with confirmed := true }, false)

/-- Modelled from the spec: applying `confirmAttendance` to the guest with the
given id inside the registry (§4.2 `getGuest` + §4.4). -/
def confirmInRegistry (gs : List RegGuest) (gid : String) : List RegGuest :=
  gs.map (fun g => if g.id = gid then (confirmAttendance g).1 else g)

/-- Modelled from the spec: the `confirmed` figure of the registry stats
endpoint (§4.2 `stats`). -/
def confirmedCount (gs : List RegGuest) : Nat :=
  (gs.filter (fun g => g.confirmed)).length

/-- Outcome of a request that hit a 401 while a refresh was in flight and was
therefore pushed onto `failedQueue` (`lib/api.ts` response interceptor):
`processQueue(null, token)` resolves it and it is retried with the new token,
`processQueue(error, null)` rejects it. -/
inductive QueuedOutcome where
  | retriedWithToken : String → QueuedOutcome
  | rejected : QueuedOutcome
deriving DecidableEq, Repr

/-- The atomic synchronous segments of the `lib/api.ts` response interceptor
(JavaScript is single-threaded, so each segment between `await` points runs
atomically): a request (with a stored refresh token, not yet retried) observes
a 401; the in-flight refresh call resolves with a new access token; or the
refresh call rejects. -/
inductive RefreshEvent where
  | request401 : Nat → RefreshEvent
  | refreshOk : String → RefreshEvent
  | refreshFail : RefreshEvent
deriving DecidableEq, Repr

/-- The interceptor's module state: the `isRefreshing` flag, `failedQueue`
(queued request ids), the number of `/auth/refresh` HTTP calls outstanding,
the log of queued-request outcomes, and whether a failed refresh cleared the
tokens and redirected to `/login`. -/
structure RefreshState where
  isRefreshing : Bool
  queue : List Nat
  inFlight : Nat
  outcomes : List (Nat × QueuedOutcome)
  forcedReauth : Bool
deriving DecidableEq, Repr

/-- The interceptor module's initial state. -/
def initRefreshState : RefreshState :=
  { isRefreshing := false, queue := [], inFlight := 0, outcomes := [], forcedReauth := false }

/-- One atomic segment of the interceptor. On a 401: if `isRefreshing`, the
request is pushed onto `failedQueue`; otherwise it sets `isRefreshing = true`
and starts the (sole) refresh call, retrying itself inline on resolution. On
resolution: `processQueue` resolves (retry with the new token) or rejects every
queued request, clears the queue, and `finally` resets `isRefreshing`; the
failure path also clears storage and redirects to `/login`. Resolution events
without an outstanding refresh call cannot occur and leave the state unchanged. -/
def refreshStep (s : RefreshState) (e : RefreshEvent) : RefreshState :=
  match e with
  | RefreshEvent.request401 r =>
    if s.isRefreshing then
      { s with queue := s.queue ++ [r] }
    else
      { s with isRefreshing := true, inFlight := s.inFlight + 1 }
  | RefreshEvent.refreshOk token =>
    if s.inFlight = 0 then s
    else
      { isRefreshing := false, queue := [], inFlight := s.inFlight - 1
        outcomes := s.outcomes ++ s.queue.map (fun r => (r, QueuedOutcome.retriedWithToken token))
        forcedReauth := s.forcedReauth }
  | RefreshEvent.refreshFail =>
    if s.inFlight = 0 then s
    else
      { isRefreshing := false, queue := [], inFlight := s.inFlight - 1
        outcomes := s.outcomes ++ s.queue.map (fun r => (r, QueuedOutcome.rejected))
        forcedReauth := true }

/-- Run the interceptor over a sequence of atomic segments. -/
def refreshRun (evs : List RefreshEvent) : RefreshState :=
  evs.foldl refreshStep initRefreshState

end Wedding

namespace Wedding

example : getSubdomain "nguyen-van-a.hoangdieuit.io.vn" = some "nguyen-van-a" := by decide
example : getSubdomain "hoangdieuit.io.vn" = none := by decide
example : getSubdomain "WWW.hoangdieuit.io.vn:443" = none := by decide
example : getSubdomain "127.0.0.1" = none := by decide
example : getSubdomain "192.168.1.7" = some "192" := by decide
example : getSubdomainFromUrl "hoangdieuit.io.vn" none = none := by decide
example : getSubdomainApi "hoangdieuit.io.vn" none = some "hoangdieuit" := by decide

/-- A nonempty string has positive length. -/
lemma String.length_pos_of_ne_empty {s : String} (h : s ≠ "") : 0 < s.length := by
  rcases s with ⟨l⟩
  cases l with
  | nil => exact absurd rfl h
  | cons c cs => simp [String.length]

/-- Prefixing a nonempty string changes any string. -/
lemma append_ne_self_of_ne_empty {s p : String} (h : s ≠ "") : s ++ p ≠ p := by
  intro he
  have hlen : (s ++ p).length = p.length := by rw [he]
  rw [String.length_append] at hlen
  have := String.length_pos_of_ne_empty h
  omega

/-- C1: the middleware's `getSubdomain` yields a candidate subdomain iff the
port-stripped host has ≥ 4 dot-separated labels with a non-reserved lowercased
first label — refuted at host `127.0.0.1`, which has 4 dot-separated labels
and the non-reserved first label `127`, yet is special-cased (together with
`localhost`) to yield no subdomain.
-/
theorem getSubdomain_127_counterexample :
    (jsSplit '.' (stripPort "127.0.0.1")).length ≥ 4
    ∧ jsToLower ((jsSplit '.' (stripPort "127.0.0.1")).headD "") ∉ SYSTEM_SUBDOMAINS
    ∧ getSubdomain "127.0.0.1" = none := by decide

/-- C1 (amended): for every host whose port-stripped form is not the loopback
literal `127.0.0.1`, `getSubdomain` yields a candidate subdomain iff the
port-stripped host has ≥ 4 dot-separated labels and its lowercased first label
is not a reserved system name; in every other case it yields no subdomain.
-/
theorem getSubdomain_candidate_iff (host : String) (h : stripPort host ≠ "127.0.0.1") :
    (getSubdomain host).isSome = true ↔
      ((jsSplit '.' (stripPort host)).length ≥ 4
        ∧ jsToLower ((jsSplit '.' (stripPort host)).headD "") ∉ SYSTEM_SUBDOMAINS) := by
  unfold getSubdomain
  by_cases hl : stripPort host = "localhost" ∨ stripPort host = "127.0.0.1"
  · rcases hl with hl | hl
    · rw [hl]
      simp only [if_pos (Or.inl rfl)]
      constructor
      · intro hcontra
        simp at hcontra
      · intro hcontra
        exact absurd hcontra (by decide)
    · exact absurd hl h
  · simp only [if_neg hl]
    by_cases h4 : (jsSplit '.' (stripPort host)).length ≥ 4
    · by_cases hm : jsToLower ((jsSplit '.' (stripPort host)).headD "") ∈ SYSTEM_SUBDOMAINS
      · simp [h4, hm]
      · simp [h4, hm]
    · simp [h4]

/-- Closed instantiation of `getSubdomain_candidate_iff` at a concrete tenant
host. -/
theorem getSubdomain_candidate_iff_witness :
    stripPort "nguyen-van-a.hoangdieuit.io.vn" ≠ "127.0.0.1"
    ∧ ((getSubdomain "nguyen-van-a.hoangdieuit.io.vn").isSome = true ↔
        ((jsSplit '.' (stripPort "nguyen-van-a.hoangdieuit.io.vn")).length ≥ 4
          ∧ jsToLower ((jsSplit '.' (stripPort "nguyen-van-a.hoangdieuit.io.vn")).headD "")
              ∉ SYSTEM_SUBDOMAINS)) :=
  ⟨by decide, getSubdomain_candidate_iff "nguyen-van-a.hoangdieuit.io.vn" (by decide)⟩

/-- C5: the two subdomain-extraction functions are equivalent — refuted at the
bare base domain `hoangdieuit.io.vn` (3 labels, empty dev storage), where
`getSubdomainFromUrl` (`lib/config.ts`, ≥ 4 labels) yields no subdomain while
`getSubdomain` (`lib/api.ts`, ≥ 2 labels) yields `hoangdieuit`.
-/
theorem subdomain_extractors_disagree :
    getSubdomainFromUrl "hoangdieuit.io.vn" none = none
    ∧ getSubdomainApi "hoangdieuit.io.vn" none = some "hoangdieuit" := by decide

/-- C5 (amended): the two subdomain-extraction functions are not equivalent in
general; they do agree — both yielding the lowercased first label — on every
host (other than the dev literals `localhost`/`127.0.0.1`) with ≥ 4
dot-separated labels whose lowercased first label is not a reserved system
name, but `lib/api.ts`'s `getSubdomain` additionally accepts 2- and 3-label
hosts (excluding only `www`/`api`/`admin`), so on the 3-label base domain the
two diverge.
-/
theorem subdomain_extractors_agree_on_tenant_hosts (host : String) (stored : Option String)
    (hl : host ≠ "localhost") (hi : host ≠ "127.0.0.1")
    (h4 : (jsSplit '.' host).length ≥ 4)
    (hres : jsToLower ((jsSplit '.' host).headD "") ∉ SYSTEM_SUBDOMAINS) :
    getSubdomainFromUrl host stored = getSubdomainApi host stored
    ∧ getSubdomainFromUrl host stored = some (jsToLower ((jsSplit '.' host).headD "")) := by
  have h2 : (jsSplit '.' host).length ≥ 2 := le_trans (by norm_num) h4
  have hw : jsToLower ((jsSplit '.' host).headD "") ≠ "www" ∧
      jsToLower ((jsSplit '.' host).headD "") ≠ "api" ∧
      jsToLower ((jsSplit '.' host).headD "") ≠ "admin" := by
    simp only [SYSTEM_SUBDOMAINS, List.mem_cons, List.not_mem_nil, or_false] at hres
    push_neg at hres
    exact ⟨hres.1, hres.2.1, hres.2.2.1⟩
  have hnl : ¬(host = "localhost" ∨ host = "127.0.0.1") := not_or.mpr ⟨hl, hi⟩
  constructor
  · unfold getSubdomainFromUrl getSubdomainApi
    simp only []
    rw [if_neg hnl, if_pos h4, if_pos hres, if_pos h2,
      if_pos (show ¬_ = "www" ∧ ¬_ = "api" ∧ ¬_ = "admin" from ⟨hw.1, hw.2.1, hw.2.2⟩)]
  · unfold getSubdomainFromUrl
    simp only []
    rw [if_neg hnl, if_pos h4, if_pos hres]

/-- Closed instantiation of `subdomain_extractors_agree_on_tenant_hosts` at a
concrete tenant host. -/
theorem subdomain_extractors_agree_witness :
    (getSubdomainFromUrl "nguyen-van-a.hoangdieuit.io.vn" none
        = getSubdomainApi "nguyen-van-a.hoangdieuit.io.vn" none)
    ∧ getSubdomainFromUrl "nguyen-van-a.hoangdieuit.io.vn" none
        = some (jsToLower ((jsSplit '.' "nguyen-van-a.hoangdieuit.io.vn").headD "")) :=
  subdomain_extractors_agree_on_tenant_hosts "nguyen-van-a.hoangdieuit.io.vn" none
    (by decide) (by decide) (by decide) (by decide)

/-- C10: `getImageUrl` is total and case-splits exactly as claimed: an absent or
empty path yields `''`; a nonempty path is returned unchanged iff it starts
with `http://` or `https://`; and otherwise the static base URL is prepended
(the base URL derived from the API URL is nonempty, which the hypothesis
records).
-/
theorem getImageUrl_cases (staticUrl : String) (hs : staticUrl ≠ "") :
    getImageUrl staticUrl none = ""
    ∧ getImageUrl staticUrl (some "") = ""
    ∧ (∀ p : String, p ≠ "" →
        (getImageUrl staticUrl (some p) = p ↔
          (jsStartsWith p "http://" = true ∨ jsStartsWith p "https://" = true)))
    ∧ (∀ p : String, p ≠ "" →
        ¬(jsStartsWith p "http://" = true ∨ jsStartsWith p "https://" = true) →
        getImageUrl staticUrl (some p) = staticUrl ++ p) := by
  have hred : ∀ p : String, getImageUrl staticUrl (some p) =
      if p = "" then ""
      else if jsStartsWith p "http://" = true ∨ jsStartsWith p "https://" = true then p
      else staticUrl ++ p := fun _ => rfl
  refine ⟨rfl, rfl, ?_, ?_⟩
  · intro p hp
    constructor
    · intro he
      by_contra hnot
      rw [hred, if_neg hp, if_neg hnot] at he
      exact append_ne_self_of_ne_empty hs he
    · intro hstart
      rw [hred, if_neg hp, if_pos hstart]
  · intro p hp hnot
    rw [hred, if_neg hp, if_neg hnot]

/-- Closed instantiation of `getImageUrl_cases` at the default static base URL
and concrete paths. -/
theorem getImageUrl_cases_witness :
    getImageUrl "http://localhost:18600" none = ""
    ∧ getImageUrl "http://localhost:18600" (some "") = ""
    ∧ (∀ p : String, p ≠ "" →
        (getImageUrl "http://localhost:18600" (some p) = p ↔
          (jsStartsWith p "http://" = true ∨ jsStartsWith p "https://" = true)))
    ∧ (∀ p : String, p ≠ "" →
        ¬(jsStartsWith p "http://" = true ∨ jsStartsWith p "https://" = true) →
        getImageUrl "http://localhost:18600" (some p) = "http://localhost:18600" ++ p) :=
  getImageUrl_cases "http://localhost:18600" (by decide)

/-- C2: the middleware's routing decision on administrative paths is NOT
independent of the host's subdomain, although `/dashboard` is listed in the
middleware's own (never consulted) `PUBLIC_ROUTES` constant: on the
administrative path `/dashboard`, a host carrying a subdomain that fails
validation is rewritten to `/not-found` while the bare base domain passes
through, and even a valid subdomain changes the decision by stamping the
`x-subdomain` header. Identity on administrative routes therefore does depend
on the host, contradicting the documented intent.
-/
theorem middleware_admin_path_depends_on_subdomain :
    "/dashboard" ∈ PUBLIC_ROUTES
    ∧ middleware (fun _ => false) "ghost.hoangdieuit.io.vn" "/dashboard"
        = Decision.rewriteNotFound
    ∧ middleware (fun _ => false) "hoangdieuit.io.vn" "/dashboard" = Decision.next
    ∧ middleware (fun _ => true) "ghost.hoangdieuit.io.vn" "/dashboard"
        = Decision.nextWithSubdomain "ghost"
    ∧ middleware (fun _ => true) "hoangdieuit.io.vn" "/dashboard" = Decision.next := by
  decide

/-- C6: a request carrying a guest id but no subdomain is served via the legacy
`public/{guestId}` path — refuted: `PublicWeddingPage` redirects to
`/not-found` whenever the extracted subdomain is falsy, even though the path
guest id `xk29fabc` is present.
-/
theorem public_page_redirects_guest_id_without_subdomain :
    getSubdomainFromUrl "hoangdieuit.io.vn" none = none
    ∧ publicWeddingPageEffect "hoangdieuit.io.vn" none "xk29fabc"
        = PageAction.redirectNotFound := by decide

/-- C6 (amended): `PublicWeddingPage` redirects to not-found exactly when the
extracted subdomain is falsy — regardless of the guest id in the path (the
`public/{guestId}` legacy URL constructed by `publicFetch` is unreachable from
this page) — and fetches and serves the invitation exactly when a truthy
subdomain is extracted.
-/
theorem publicWeddingPageEffect_cases (hostname : String) (stored : Option String)
    (guestId : String) :
    (jsTruthy (getSubdomainFromUrl hostname stored) = false →
      publicWeddingPageEffect hostname stored guestId = PageAction.redirectNotFound)
    ∧ (jsTruthy (getSubdomainFromUrl hostname stored) = true →
      publicWeddingPageEffect hostname stored guestId = PageAction.fetchWedding guestId) := by
  unfold publicWeddingPageEffect
  constructor
  · intro hfalse
    rw [if_pos hfalse]
  · intro htrue
    rw [if_neg (by simp [htrue])]

/-- Closed instantiation of `publicWeddingPageEffect_cases` on both branches. -/
theorem publicWeddingPageEffect_cases_witness :
    publicWeddingPageEffect "hoangdieuit.io.vn" none "xk29f" = PageAction.redirectNotFound
    ∧ publicWeddingPageEffect "nguyen-van-a.hoangdieuit.io.vn" none "xk29f"
        = PageAction.fetchWedding "xk29f" :=
  ⟨(publicWeddingPageEffect_cases "hoangdieuit.io.vn" none "xk29f").1 (by decide),
   (publicWeddingPageEffect_cases "nguyen-van-a.hoangdieuit.io.vn" none "xk29f").2 (by decide)⟩

/-- C7: `publicFetch` selects its target by subdomain presence — with a truthy
extracted subdomain the request goes to
`/landing-page/by-subdomain/{guestId}[/endpoint]` and carries an `X-Subdomain`
header equal to that subdomain; with no (or a falsy) extracted subdomain it
goes to `/landing-page/public/{guestId}[/endpoint]` with no `X-Subdomain`
header.
-/
theorem publicFetch_target_selection (apiUrl hostname : String) (stored : Option String)
    (guestId : String) (endpoint : Option String) :
    (∀ s : String, getSubdomainFromUrl hostname stored = some s → s ≠ "" →
      publicFetchRequest apiUrl hostname stored guestId endpoint =
        { url := apiUrl ++ "/landing-page/" ++ "by-subdomain" ++ "/" ++ guestId ++
            (if jsTruthy endpoint then "/" ++ endpoint.getD "" else "")
          xSubdomain := some s })
    ∧ (jsTruthy (getSubdomainFromUrl hostname stored) = false →
      publicFetchRequest apiUrl hostname stored guestId endpoint =
        { url := apiUrl ++ "/landing-page/" ++ "public" ++ "/" ++ guestId ++
            (if jsTruthy endpoint then "/" ++ endpoint.getD "" else "")
          xSubdomain := none }) := by
  constructor
  · intro s hsome hne
    have hts : jsTruthy (some s) = true := by
      simpa [jsTruthy] using hne
    simp [publicFetchRequest, hsome, hts]
  · intro hf
    simp [publicFetchRequest, hf]

/-- Closed instantiation of `publicFetch_target_selection` on both branches. -/
theorem publicFetch_target_selection_witness :
    publicFetchRequest "http://localhost:18600/api/v1" "nguyen-van-a.hoangdieuit.io.vn" none
        "xk29f" (some "confirm") =
      { url := "http://localhost:18600/api/v1" ++ "/landing-page/" ++ "by-subdomain" ++ "/"
          ++ "xk29f" ++ (if jsTruthy (some "confirm") then "/" ++ (some "confirm").getD "" else "")
        xSubdomain := some "nguyen-van-a" }
    ∧ publicFetchRequest "http://localhost:18600/api/v1" "hoangdieuit.io.vn" none
        "xk29f" none =
      { url := "http://localhost:18600/api/v1" ++ "/landing-page/" ++ "public" ++ "/"
          ++ "xk29f" ++ (if jsTruthy none then "/" ++ (none : Option String).getD "" else "")
        xSubdomain := none } :=
  ⟨(publicFetch_target_selection "http://localhost:18600/api/v1"
      "nguyen-van-a.hoangdieuit.io.vn" none "xk29f" (some "confirm")).1
      "nguyen-van-a" (by decide) (by decide),
   (publicFetch_target_selection "http://localhost:18600/api/v1"
      "hoangdieuit.io.vn" none "xk29f" none).2 (by decide)⟩

/-- C8: the guest list marks a guest as the non-deletable demo guest purely by
position — the "Demo" badge is shown and the delete button hidden exactly when
the row is at index 0 of page 1, and the controls are equal for any two guest
records at the same position (so no stored identity or flag is involved, and a
different guest becomes the protected one after a deletion or page change).
-/
theorem demo_guest_is_positional (g g' : Guest) (currentPage index : Nat) :
    guestRowControls g currentPage index = guestRowControls g' currentPage index
    ∧ ((guestRowControls g currentPage index).2 = false ↔ (currentPage = 1 ∧ index = 0))
    ∧ ((guestRowControls g currentPage index).1 = true ↔ (currentPage = 1 ∧ index = 0)) := by
  refine ⟨rfl, ?_, ?_⟩ <;>
    simp [guestRowControls, isFirstGuest]

/-- A confirm call always leaves the guest confirmed. -/
lemma confirmAttendance_confirmed (g : RegGuest) : ((confirmAttendance g).1).confirmed = true := by
  unfold confirmAttendance
  by_cases h : g.confirmed <;> simp [h]

/-- A confirm call never changes the guest id. -/
lemma confirmAttendance_id (g : RegGuest) : ((confirmAttendance g).1).id = g.id := by
  unfold confirmAttendance
  by_cases h : g.confirmed <;> simp [h]

/-- The second confirm call performs no write and reports `alreadyConfirmed`. -/
lemma confirmAttendance_second (g : RegGuest) :
    confirmAttendance ((confirmAttendance g).1) = ((confirmAttendance g).1, true) := by
  unfold confirmAttendance
  by_cases h : g.confirmed <;> simp [h]

/-- Confirming the same guest id in the registry twice equals confirming once. -/
lemma confirmGuest_idem (g : RegGuest) :
    (confirmAttendance ((confirmAttendance g).1)).1 = (confirmAttendance g).1 := by
  rw [confirmAttendance_second]

/-- Confirming the same guest id in the registry twice equals confirming once. -/
lemma confirmInRegistry_idem (gs : List RegGuest) (gid : String) :
    confirmInRegistry (confirmInRegistry gs gid) gid = confirmInRegistry gs gid := by
  induction gs with
  | nil => rfl
  | cons g rest ih =>
    simp only [confirmInRegistry, List.map_cons] at ih ⊢
    refine congrArg₂ _ ?_ ih
    by_cases h : g.id = gid
    · simp [h, confirmAttendance_id, confirmGuest_idem]
    · simp [h]

/-- One registry confirm raises the confirmed count by the number of matching
unconfirmed guests. -/
lemma confirmedCount_confirmInRegistry (gs : List RegGuest) (gid : String) :
    confirmedCount (confirmInRegistry gs gid)
      = confirmedCount gs + gs.countP (fun g => g.id == gid && !g.confirmed) := by
  induction gs with
  | nil => rfl
  | cons g rest ih =>
    simp only [confirmedCount, confirmInRegistry, List.map_cons, List.countP_cons,
      List.filter_cons] at ih ⊢
    by_cases h : g.id = gid
    · have hb : (g.id == gid) = true := by simpa using h
      by_cases hc : g.confirmed = true
      · have hcg : (confirmAttendance g).1 = g := by
          unfold confirmAttendance
          rw [if_pos hc]
        simp [h, hb, hc, hcg, ih]
        omega
      · simp only [Bool.not_eq_true] at hc
        have hcg : ((confirmAttendance g).1).confirmed = true := confirmAttendance_confirmed g
        simp [h, hb, hc, hcg, ih]
        omega
    · have hb : (g.id == gid) = false := by simpa using h
      by_cases hc : g.confirmed = true
      · simp [h, hb, hc, ih]
        omega
      · simp [h, hb, hc, ih]

/-- C3: confirmation is idempotent — once a guest is confirmed, the invite page's
confirm button only re-opens the modal and issues 0 further POSTs; on the
registry side every guest is confirmed after one call, a second
`confirmAttendance` performs no write and reports `alreadyConfirmed = true`,
and when the id names exactly one unconfirmed guest the stats confirmed count
rises by exactly 1 after one call and stays there after the second.
-/
theorem confirm_idempotent (s : ConfirmClientState) (r : ConfirmApiResult)
    (gs : List RegGuest) (gid : String)
    (hs : s.hasConfirmed = true)
    (hone : gs.countP (fun g => g.id == gid && !g.confirmed) = 1) :
    confirmButtonClick s r = ({ s with isModalOpen := true }, 0)
    ∧ (∀ g : RegGuest, ((confirmAttendance g).1).confirmed = true)
    ∧ (∀ g : RegGuest,
        confirmAttendance ((confirmAttendance g).1) = ((confirmAttendance g).1, true))
    ∧ confirmInRegistry (confirmInRegistry gs gid) gid = confirmInRegistry gs gid
    ∧ confirmedCount (confirmInRegistry gs gid) = confirmedCount gs + 1
    ∧ confirmedCount (confirmInRegistry (confirmInRegistry gs gid) gid)
        = confirmedCount gs + 1 := by
  refine ⟨?_, confirmAttendance_confirmed, confirmAttendance_second,
    confirmInRegistry_idem gs gid, ?_, ?_⟩
  · unfold confirmButtonClick
    rw [if_pos hs]
  · rw [confirmedCount_confirmInRegistry, hone]
  · rw [confirmInRegistry_idem, confirmedCount_confirmInRegistry, hone]

/-- Closed instantiation of `confirm_idempotent`: a confirmed client state and
a one-guest registry. -/
theorem confirm_idempotent_witness :
    confirmButtonClick ⟨false, true, false⟩ ConfirmApiResult.ok
        = (⟨false, true, true⟩, 0)
    ∧ confirmInRegistry (confirmInRegistry [⟨"g1", false⟩] "g1") "g1"
        = confirmInRegistry [⟨"g1", false⟩] "g1"
    ∧ confirmedCount (confirmInRegistry [⟨"g1", false⟩] "g1")
        = confirmedCount [⟨"g1", false⟩] + 1
    ∧ confirmedCount (confirmInRegistry (confirmInRegistry [⟨"g1", false⟩] "g1") "g1")
        = confirmedCount [⟨"g1", false⟩] + 1 := by
  have h := confirm_idempotent ⟨false, true, false⟩ ConfirmApiResult.ok
    [⟨"g1", false⟩] "g1" (by decide) (by decide)
  exact ⟨h.1, h.2.2.2.1, h.2.2.2.2.1, h.2.2.2.2.2⟩

/-- A `findIndex` success: the found index addresses an element satisfying the
predicate. -/
lemma findIdx?_some_spec {α : Type} (p : α → Bool) (l : List α) (i : Nat)
    (h : l.findIdx? p = some i) : ∃ a, l.get? i = some a ∧ p a = true := by
  obtain ⟨hlt, hpa, -⟩ := List.findIdx?_eq_some_iff_getElem.mp h
  refine ⟨l.get ⟨i, hlt⟩, ?_, by simpa using hpa⟩
  exact List.get?_eq_get hlt

/-- A list is a permutation of any element pulled to the front of its own
erasure. -/
lemma perm_get_cons_eraseIdx {α : Type} :
    ∀ (l : List α) (i : Nat) (a : α), l.get? i = some a → l.Perm (a :: l.eraseIdx i) := by
  intro l
  induction l with
  | nil =>
    intro i a h
    simp at h
  | cons x xs ih =>
    intro i a h
    cases i with
    | zero =>
      simp only [List.get?_cons_zero, Option.some.injEq] at h
      subst h
      simp [List.eraseIdx]
    | succ n =>
      simp only [List.get?_cons_succ] at h
      have hperm := (ih n a h).cons x
      simp only [List.eraseIdx_cons_succ]
      exact hperm.trans (List.Perm.swap a x (xs.eraseIdx n))

/-- Applying `arrayMove` with in-range indices permutes the list. -/
lemma arrayMove_perm {α : Type} (l : List α) (i j : Nat) (a : α)
    (hget : l.get? i = some a) (hj : j < l.length) :
    (arrayMove l i j).Perm l := by
  have hi : i < l.length := by
    by_contra hge
    rw [List.get?_eq_none.mpr (le_of_not_lt hge)] at hget
    exact Option.noConfusion hget
  have hlen : (l.eraseIdx i).length = l.length - 1 := by
    rw [List.length_eraseIdx]
    simp [hi]
  have hj' : j ≤ (l.eraseIdx i).length := by omega
  unfold arrayMove
  rw [hget]
  exact (List.perm_insertIdx a _ hj').trans (perm_get_cons_eraseIdx l i a hget).symm

/-- Renumbering assigns the consecutive orders `n, n+1, ...` down the list. -/
lemma renumberFrom_map_order :
    ∀ (l : List AlbumImage) (n : Nat),
      (renumberFrom n l).map (fun img => img.order) = List.range' n l.length := by
  intro l
  induction l with
  | nil => intro n; rfl
  | cons img rest ih =>
    intro n
    simp only [renumberFrom, List.map_cons, List.length_cons, List.range'_succ]
    exact congrArg _ (ih (n + 1))

/-- Renumbering preserves the image ids in order. -/
lemma renumberFrom_map_id :
    ∀ (l : List AlbumImage) (n : Nat),
      (renumberFrom n l).map (fun img => img.id) = l.map (fun img => img.id) := by
  intro l
  induction l with
  | nil => intro n; rfl
  | cons img rest ih =>
    intro n
    simp only [renumberFrom, List.map_cons]
    exact congrArg _ (ih (n + 1))

/-- C4: a drag-reorder moving one image id onto another (both present, distinct)
produces a list whose `order` values are exactly `1, ..., N` — no gaps, no
duplicates — and whose image ids are a permutation of the original ids.
-/
theorem handleDragEnd_contiguous_permutation (images : List AlbumImage)
    (activeId overId : String)
    (hne : activeId ≠ overId)
    (ha : (images.findIdx? (fun img => img.id = activeId)).isSome = true)
    (ho : (images.findIdx? (fun img => img.id = overId)).isSome = true) :
    (handleDragEnd images activeId overId).map (fun img => img.order)
        = List.range' 1 images.length
    ∧ ((handleDragEnd images activeId overId).map (fun img => img.id)).Perm
        (images.map (fun img => img.id)) := by
  obtain ⟨i, hi⟩ := Option.isSome_iff_exists.mp ha
  obtain ⟨j, hj⟩ := Option.isSome_iff_exists.mp ho
  obtain ⟨a, hga, _⟩ := findIdx?_some_spec _ images i hi
  obtain ⟨b, hgb, _⟩ := findIdx?_some_spec _ images j hj
  have hjlt : j < images.length := by
    by_contra hge
    rw [List.get?_eq_none.mpr (le_of_not_lt hge)] at hgb
    exact Option.noConfusion hgb
  have hperm := arrayMove_perm images i j a hga hjlt
  unfold handleDragEnd
  rw [if_pos hne, hi, hj]
  simp only []
  constructor
  · rw [renumberFrom_map_order, hperm.length_eq]
  · rw [renumberFrom_map_id]
    exact hperm.map (fun img => img.id)

/-- Closed instantiation of `handleDragEnd_contiguous_permutation`: dragging
the first of three images onto the last. -/
theorem handleDragEnd_contiguous_permutation_witness :
    (handleDragEnd [⟨"a", "u1", 1⟩, ⟨"b", "u2", 2⟩, ⟨"c", "u3", 3⟩] "a" "c").map
        (fun img => img.order) = List.range' 1 3
    ∧ ((handleDragEnd [⟨"a", "u1", 1⟩, ⟨"b", "u2", 2⟩, ⟨"c", "u3", 3⟩] "a" "c").map
        (fun img => img.id)).Perm
          (([⟨"a", "u1", 1⟩, ⟨"b", "u2", 2⟩, ⟨"c", "u3", 3⟩] : List AlbumImage).map
            (fun img => img.id)) := by
  have h := handleDragEnd_contiguous_permutation
    [⟨"a", "u1", 1⟩, ⟨"b", "u2", 2⟩, ⟨"c", "u3", 3⟩] "a" "c"
    (by decide) (by decide) (by decide)
  exact ⟨h.1, h.2⟩

/-- The interceptor invariant: the number of outstanding refresh calls is 1
exactly while `isRefreshing` is set (so never more than one), and requests are
queued only while a refresh is in flight. -/
def RefreshInv (s : RefreshState) : Prop :=
  s.inFlight = (if s.isRefreshing then 1 else 0) ∧ (s.queue ≠ [] → s.isRefreshing = true)

/-- Every atomic interceptor segment preserves the invariant. -/
lemma refreshStep_inv (s : RefreshState) (e : RefreshEvent) (h : RefreshInv s) :
    RefreshInv (refreshStep s e) := by
  obtain ⟨h1, h2⟩ := h
  cases e with
  | request401 r =>
    simp only [refreshStep]
    by_cases hr : s.isRefreshing = true
    · rw [if_pos hr]
      exact ⟨by simpa [hr] using h1, fun _ => hr⟩
    · rw [if_neg hr]
      simp only [Bool.not_eq_true] at hr
      refine ⟨?_, fun _ => rfl⟩
      simp [hr] at h1
      simp [h1]
  | refreshOk token =>
    simp only [refreshStep]
    by_cases hz : s.inFlight = 0
    · rw [if_pos hz]
      exact ⟨h1, h2⟩
    · rw [if_neg hz]
      have hr : s.isRefreshing = true := by
        by_contra hfalse
        simp only [Bool.not_eq_true] at hfalse
        simp [hfalse] at h1
        exact hz h1
      refine ⟨?_, fun hq => absurd rfl hq⟩
      simp [hr] at h1
      simp [h1]
  | refreshFail =>
    simp only [refreshStep]
    by_cases hz : s.inFlight = 0
    · rw [if_pos hz]
      exact ⟨h1, h2⟩
    · rw [if_neg hz]
      have hr : s.isRefreshing = true := by
        by_contra hfalse
        simp only [Bool.not_eq_true] at hfalse
        simp [hfalse] at h1
        exact hz h1
      refine ⟨?_, fun hq => absurd rfl hq⟩
      simp [hr] at h1
      simp [h1]

/-- The invariant holds after any sequence of atomic interceptor segments. -/
lemma refreshRun_inv (evs : List RefreshEvent) : RefreshInv (refreshRun evs) := by
  have hgen : ∀ (l : List RefreshEvent) (s : RefreshState),
      RefreshInv s → RefreshInv (List.foldl refreshStep s l) := by
    intro l
    induction l with
    | nil => intro s h; exact h
    | cons e rest ih =>
      intro s h
      exact ih (refreshStep s e) (refreshStep_inv s e h)
  exact hgen evs initRefreshState ⟨rfl, fun hq => absurd rfl hq⟩

/-- C9: token refresh is single-flight — after any sequence of atomic interceptor
segments at most one refresh call is outstanding; and whenever requests are
queued behind the in-flight refresh, a successful resolution retries every
queued request with the new token and empties the queue, while a failed
resolution rejects every queued request uniformly and forces re-authentication
(tokens cleared, redirect to login).
-/
theorem refresh_single_flight (evs : List RefreshEvent) (token : String) :
    (refreshRun evs).inFlight ≤ 1
    ∧ ((refreshRun evs).queue ≠ [] →
        (refreshStep (refreshRun evs) (RefreshEvent.refreshOk token)).outcomes
            = (refreshRun evs).outcomes
              ++ (refreshRun evs).queue.map (fun r => (r, QueuedOutcome.retriedWithToken token))
        ∧ (refreshStep (refreshRun evs) (RefreshEvent.refreshOk token)).queue = []
        ∧ (refreshStep (refreshRun evs) (RefreshEvent.refreshOk token)).isRefreshing = false
        ∧ (refreshStep (refreshRun evs) RefreshEvent.refreshFail).outcomes
            = (refreshRun evs).outcomes
              ++ (refreshRun evs).queue.map (fun r => (r, QueuedOutcome.rejected))
        ∧ (refreshStep (refreshRun evs) RefreshEvent.refreshFail).queue = []
        ∧ (refreshStep (refreshRun evs) RefreshEvent.refreshFail).forcedReauth = true) := by
  obtain ⟨h1, h2⟩ := refreshRun_inv evs
  constructor
  · rw [h1]
    by_cases hr : (refreshRun evs).isRefreshing = true <;> simp [hr]
  · intro hq
    have hr : (refreshRun evs).isRefreshing = true := h2 hq
    have hnz : ¬(refreshRun evs).inFlight = 0 := by
      rw [h1, hr]
      simp
    refine ⟨?_, ?_, ?_, ?_, ?_, ?_⟩ <;>
      · simp only [refreshStep]
        rw [if_neg hnz]

/-- Closed instantiation of `refresh_single_flight`: three requests hit a 401
in sequence; the first starts the sole refresh and the other two are queued. -/
theorem refresh_single_flight_witness :
    (refreshRun [RefreshEvent.request401 0, RefreshEvent.request401 1,
        RefreshEvent.request401 2]).inFlight ≤ 1
    ∧ ((refreshStep (refreshRun [RefreshEvent.request401 0, RefreshEvent.request401 1,
          RefreshEvent.request401 2]) (RefreshEvent.refreshOk "tok")).outcomes
        = (refreshRun [RefreshEvent.request401 0, RefreshEvent.request401 1,
            RefreshEvent.request401 2]).outcomes
          ++ (refreshRun [RefreshEvent.request401 0, RefreshEvent.request401 1,
              RefreshEvent.request401 2]).queue.map
                (fun r => (r, QueuedOutcome.retriedWithToken "tok"))
      ∧ (refreshStep (refreshRun [RefreshEvent.request401 0, RefreshEvent.request401 1,
            RefreshEvent.request401 2]) (RefreshEvent.refreshOk "tok")).queue = []
      ∧ (refreshStep (refreshRun [RefreshEvent.request401 0, RefreshEvent.request401 1,
            RefreshEvent.request401 2]) (RefreshEvent.refreshOk "tok")).isRefreshing = false
      ∧ (refreshStep (refreshRun [RefreshEvent.request401 0, RefreshEvent.request401 1,
            RefreshEvent.request401 2]) RefreshEvent.refreshFail).outcomes
          = (refreshRun [RefreshEvent.request401 0, RefreshEvent.request401 1,
              RefreshEvent.request401 2]).outcomes
            ++ (refreshRun [RefreshEvent.request401 0, RefreshEvent.request401 1,
                RefreshEvent.request401 2]).queue.map (fun r => (r, QueuedOutcome.rejected))
      ∧ (refreshStep (refreshRun [RefreshEvent.request401 0, RefreshEvent.request401 1,
            RefreshEvent.request401 2]) RefreshEvent.refreshFail).queue = []
      ∧ (refreshStep (refreshRun [RefreshEvent.request401 0, RefreshEvent.request401 1,
            RefreshEvent.request401 2]) RefreshEvent.refreshFail).forcedReauth = true) :=
  ⟨(refresh_single_flight [RefreshEvent.request401 0, RefreshEvent.request401 1,
      RefreshEvent.request401 2] "tok").1,
   (refresh_single_flight [RefreshEvent.request401 0, RefreshEvent.request401 1,
      RefreshEvent.request401 2] "tok").2 (by decide)⟩

end Wedding
